import Mathlib

/-
Verification of the fullstack CRUD server (tasks and bookmarks).

The embedding models the storage service (services/db.ts: parameterized SQL
against the tasks and bookmarks tables), the auth service (services/auth.ts:
a single hardcoded token), the domain layer (domain/taskDomain.ts and
domain/bookmarksDomain.ts: authenticate, then delegate to storage stamping
the principal as owner), and the RPC mutation wrapper (web/trpcRouter.ts:
mutations map a successful domain result to the sentinel string).

Modelling conventions:
- The database is a value of type `Db`: the two tables as lists of rows in
  insertion order, the SERIAL counters, and a clock for CURRENT_TIMESTAMP.
- SERIAL ids are naturals. The TypeScript layer passes ids as decimal
  strings and `mapToExternal` renders them with `toString`; both directions
  are injective presentations of the integer, so the model keeps `Nat`.
- Timestamps are naturals; `toISOString` is an injective formatting of the
  timestamp and is modelled as the timestamp itself.
- A rejected promise is `Except.error`; a resolved one is `Except.ok`.
- JavaScript truthiness on an optional string (`if (tag)`) holds exactly
  when the value is present and nonempty; `truthy` models it.
- ORDER BY created_at DESC is modelled by an insertion sort on the key,
  descending; SQL leaves the order of ties unspecified, the model picks one.
- ILIKE is modelled by `likeMatch` over the pattern the code interpolates
  (`'%' ++ q ++ '%'`), with % matching any sequence, _ matching any single
  character, backslash escaping the next character, and characters compared
  case-insensitively.
-/

namespace App

/- Rows as stored in the two tables (services/db.ts column names). -/

structure TaskRow where
  id : Nat
  title : String
  description : String
  completed : Bool
  created_by : String
  created_at : Nat
deriving Repr, DecidableEq

structure BookmarkRow where
  id : Nat
  title : String
  url : String
  tags : List String
  created_at : Nat
  created_by : String
deriving Repr, DecidableEq

structure Db where
  tasks : List TaskRow
  bookmarks : List BookmarkRow
  nextTaskId : Nat
  nextBookmarkId : Nat
  now : Nat
deriving Repr, DecidableEq

/- External record shapes returned to callers (db.ts `Task` and `Bookmark`). -/

structure Task where
  id : Nat
  title : String
  description : String
  completed : Bool
  createdBy : String
  createdAt : Nat
deriving Repr, DecidableEq

structure TaskInput where
  title : String
  description : String
  createdBy : String
deriving Repr, DecidableEq

structure Bookmark where
  id : Nat
  title : String
  url : String
  tags : List String
  createdAt : Nat
  createdBy : String
deriving Repr, DecidableEq

/-- db.ts `mapToExternal`: renames created_by/created_at to camelCase. -/
def mapToExternal (row : TaskRow) : Task :=
  { id := row.id, title := row.title, description := row.description
    completed := row.completed, createdBy := row.created_by, createdAt := row.created_at }

/-- db.ts `mapBookmark`; `row.tags || []` only replaces a SQL NULL, and the
tags column has DEFAULT an empty array and is never set to NULL, so in the
model the tags pass through unchanged. -/
def mapBookmark (row : BookmarkRow) : Bookmark :=
  { id := row.id, title := row.title, url := row.url, tags := row.tags
    createdAt := row.created_at, createdBy := row.created_by }

/- ORDER BY created_at DESC. -/

def insertByKeyDesc {α : Type} (key : α → Nat) (x : α) : List α → List α
  | [] => [x]
  | y :: ys => if key y ≤ key x then x :: y :: ys else y :: insertByKeyDesc key x ys

def sortByKeyDesc {α : Type} (key : α → Nat) : List α → List α
  | [] => []
  | x :: xs => insertByKeyDesc key x (sortByKeyDesc key xs)

/- ILIKE pattern semantics (PostgreSQL): % matches any sequence, _ matches
any one character, backslash escapes the following pattern character, and
ILIKE compares characters case-insensitively. -/

def charCI (a b : Char) : Bool := a.toLower == b.toLower

def likeMatch : List Char → List Char → Bool
  | [], cs => cs.isEmpty
  | p :: ps, cs =>
    if p = '%' then cs.tails.any fun suffix => likeMatch ps suffix
    else if p = '\\' then
      match ps, cs with
      | q :: qs, c :: cs2 => charCI q c && likeMatch qs cs2
      | _, _ => false
    else
      match cs with
      | [] => false
      | c :: cs2 => (p == '_' || charCI p c) && likeMatch ps cs2

/-- db.ts ILIKE: does the string match the pattern, case-insensitively. -/
def ilike (s pattern : String) : Bool := likeMatch pattern.data s.data

/-- Case-insensitive prefix test, written from the spec words for the
substring claim: the needle is a prefix of the haystack up to case. -/
def ciLeading : List Char → List Char → Bool
  | [], _ => true
  | _ :: _, [] => false
  | p :: ps, c :: cs => charCI p c && ciLeading ps cs

/-- Case-insensitive substring test, written from the spec words for the
substring claim: some suffix of the haystack starts with the needle. -/
def ciSubstr (needle : List Char) : List Char → Bool
  | [] => ciLeading needle []
  | c :: cs => ciLeading needle (c :: cs) || ciSubstr needle cs

/-- Queries free of the ILIKE pattern metacharacters: percent, underscore
and backslash. -/
def noWildcards (l : List Char) : Bool :=
  l.all fun c => !(c == '%' || c == '_' || c == '\\')

/-- JavaScript truthiness of `string | undefined`: undefined and the empty
string are falsy, every other string is truthy. -/
def truthy : Option String → Bool
  | none => false
  | some s => !(s == "")

/- Errors. A rejected query promise carries either the NotFound rejection the
storage code constructs, or the error the database itself raises when handed
a malformed statement. -/

inductive DbErr where
  | notFound
  | malformedSql
deriving Repr, DecidableEq

inductive AuthErr where
  | noTokenProvided
  | invalidToken
deriving Repr, DecidableEq

inductive AppErr where
  | auth (e : AuthErr)
  | db (e : DbErr)
deriving Repr, DecidableEq

/- Storage service (services/db.ts). -/

/-- SELECT star FROM tasks ORDER BY created_at DESC, rows mapped external. -/
def getAllTasks (db : Db) : List Task :=
  (sortByKeyDesc TaskRow.created_at db.tasks).map mapToExternal

/-- SELECT star FROM tasks WHERE id equals the argument; first row or undefined. -/
def getTaskById (db : Db) (id : Nat) : Option Task :=
  (db.tasks.find? fun r => r.id == id).map mapToExternal

/-- INSERT INTO tasks (title, description, created_by, created_at) RETURNING
star; the completed column takes its DEFAULT FALSE, the id the SERIAL value. -/
def createTask (db : Db) (input : TaskInput) : Task × Db :=
  let row : TaskRow :=
    { id := db.nextTaskId, title := input.title, description := input.description
      completed := false, created_by := input.createdBy, created_at := db.now }
  (mapToExternal row, { db with tasks := db.tasks ++ [row], nextTaskId := db.nextTaskId + 1 })

structure TaskUpdates where
  title? : Option String
  description? : Option String
  completed? : Option Bool
deriving Repr, DecidableEq

inductive TaskSet where
  | setTitle (t : String)
  | setDescription (d : String)
  | setCompleted (c : Bool)
deriving Repr, DecidableEq

/-- The SET clause updateTask builds: one assignment per present field, in
the order title, description, completed. -/
def taskSetClause (u : TaskUpdates) : List TaskSet :=
  (match u.title? with | some t => [TaskSet.setTitle t] | none => []) ++
  (match u.description? with | some d => [TaskSet.setDescription d] | none => []) ++
  (match u.completed? with | some c => [TaskSet.setCompleted c] | none => [])

def applyTaskSet (r : TaskRow) : TaskSet → TaskRow
  | .setTitle t => { r with title := t }
  | .setDescription d => { r with description := d }
  | .setCompleted c => { r with completed := c }

def applyTaskSets (sets : List TaskSet) (r : TaskRow) : TaskRow :=
  sets.foldl applyTaskSet r

/-- UPDATE tasks SET fields WHERE id equals the argument. With no present
field the statement has an empty SET clause, which is not valid SQL, and the
database rejects it; otherwise the promise resolves when at least one row
was affected and rejects with NotFound when none was. -/
def updateTask (db : Db) (id : Nat) (u : TaskUpdates) : Except DbErr Db :=
  let sets := taskSetClause u
  if sets.isEmpty then .error .malformedSql
  else if db.tasks.any (fun r => r.id == id) then
    .ok { db with tasks := db.tasks.map fun r => if r.id == id then applyTaskSets sets r else r }
  else .error .notFound

/-- DELETE FROM tasks WHERE id equals the argument; NotFound when no row
was affected. -/
def deleteTask (db : Db) (id : Nat) : Except DbErr Db :=
  if db.tasks.any (fun r => r.id == id) then
    .ok { db with tasks := db.tasks.filter fun r => !(r.id == id) }
  else .error .notFound

/-- The AND TAG equals ANY(tags) conjunct, added only when the tag argument
is truthy. -/
def tagCond (tag? : Option String) (r : BookmarkRow) : Bool :=
  if truthy tag? then r.tags.contains (tag?.getD "") else true

/-- The AND (title ILIKE pat OR url ILIKE pat) conjunct with pat the query
wrapped in percent signs, added only when the query argument is truthy. -/
def queryCond (query? : Option String) (r : BookmarkRow) : Bool :=
  if truthy query? then
    let pat := "%" ++ query?.getD "" ++ "%"
    ilike r.title pat || ilike r.url pat
  else true

/-- SELECT star FROM bookmarks WHERE created_by equals the caller, plus the
optional tag and query conjuncts, ORDER BY created_at DESC. -/
def getAllBookmarks (db : Db) (username : String) (tag? query? : Option String) : List Bookmark :=
  (sortByKeyDesc BookmarkRow.created_at
    (db.bookmarks.filter fun r =>
      r.created_by == username && tagCond tag? r && queryCond query? r)).map mapBookmark

/-- SELECT star FROM bookmarks WHERE id and created_by both match; first row
or null. -/
def getBookmarkById (db : Db) (id : Nat) (username : String) : Option Bookmark :=
  (db.bookmarks.find? fun r => r.id == id && r.created_by == username).map mapBookmark

/-- INSERT INTO bookmarks (title, url, tags, created_by) RETURNING star;
created_at takes its DEFAULT NOW(), the id the SERIAL value. -/
def createBookmark (db : Db) (title url : String) (tags : List String) (username : String) :
    Bookmark × Db :=
  let row : BookmarkRow :=
    { id := db.nextBookmarkId, title := title, url := url, tags := tags
      created_at := db.now, created_by := username }
  (mapBookmark row,
   { db with bookmarks := db.bookmarks ++ [row], nextBookmarkId := db.nextBookmarkId + 1 })

/-- UPDATE bookmarks SET title, url, tags WHERE id and created_by both match,
RETURNING star: the result is the first updated row, or null when no row
matched; the promise resolves either way. -/
def updateBookmark (db : Db) (id : Nat) (title url : String) (tags : List String)
    (username : String) : Option Bookmark × Db :=
  let touched := { db with bookmarks := db.bookmarks.map fun r =>
      if r.id == id && r.created_by == username then
        { r with title := title, url := url, tags := tags }
      else r }
  match db.bookmarks.filter (fun r => r.id == id && r.created_by == username) with
  | [] => (none, touched)
  | r :: _ => (some (mapBookmark { r with title := title, url := url, tags := tags }), touched)

/-- DELETE FROM bookmarks WHERE id and created_by both match; the promise
resolves to undefined without inspecting the affected row count. -/
def deleteBookmark (db : Db) (id : Nat) (username : String) : Db :=
  { db with bookmarks := db.bookmarks.filter fun r => !(r.id == id && r.created_by == username) }

/- Auth service (services/auth.ts). -/

structure Principal where
  username : String
deriving Repr, DecidableEq

/-- Rejects when the token is falsy (the empty string) or differs from the
single accepted literal; otherwise resolves the fixed principal. -/
def authenticateUserToken (token : String) : Except AuthErr Principal :=
  if token == "" then .error .noTokenProvided
  else if token == "demo-token" then .ok { username := "demo-user" }
  else .error .invalidToken

/- Domain layer (domain/taskDomain.ts and domain/bookmarksDomain.ts):
authenticate the token, then delegate to storage; create calls stamp the
authenticated username as owner, bookmark calls pass it into the WHERE. -/

def domainGetAllTasks (token : String) (db : Db) : Except AppErr (List Task) :=
  match authenticateUserToken token with
  | .error e => .error (.auth e)
  | .ok _ => .ok (getAllTasks db)

def domainGetTaskById (token : String) (db : Db) (id : Nat) : Except AppErr (Option Task) :=
  match authenticateUserToken token with
  | .error e => .error (.auth e)
  | .ok _ => .ok (getTaskById db id)

def domainCreateTask (token title description : String) (db : Db) : Except AppErr (Task × Db) :=
  match authenticateUserToken token with
  | .error e => .error (.auth e)
  | .ok user => .ok (createTask db { title := title, description := description
                                     createdBy := user.username })

def domainUpdateTask (token : String) (id : Nat) (title? description? : Option String)
    (completed? : Option Bool) (db : Db) : Except AppErr Db :=
  match authenticateUserToken token with
  | .error e => .error (.auth e)
  | .ok _ =>
    match updateTask db id { title? := title?, description? := description?
                             completed? := completed? } with
    | .error e => .error (.db e)
    | .ok db2 => .ok db2

def domainDeleteTask (token : String) (id : Nat) (db : Db) : Except AppErr Db :=
  match authenticateUserToken token with
  | .error e => .error (.auth e)
  | .ok _ =>
    match deleteTask db id with
    | .error e => .error (.db e)
    | .ok db2 => .ok db2

def domainGetAllBookmarks (token : String) (db : Db) (tag? query? : Option String) :
    Except AppErr (List Bookmark) :=
  match authenticateUserToken token with
  | .error e => .error (.auth e)
  | .ok user => .ok (getAllBookmarks db user.username tag? query?)

def domainGetBookmarkById (token : String) (db : Db) (id : Nat) :
    Except AppErr (Option Bookmark) :=
  match authenticateUserToken token with
  | .error e => .error (.auth e)
  | .ok user => .ok (getBookmarkById db id user.username)

def domainCreateBookmark (token title url : String) (tags : List String) (db : Db) :
    Except AppErr (Bookmark × Db) :=
  match authenticateUserToken token with
  | .error e => .error (.auth e)
  | .ok user => .ok (createBookmark db title url tags user.username)

def domainUpdateBookmark (token : String) (id : Nat) (title url : String)
    (tags : List String) (db : Db) : Except AppErr (Option Bookmark × Db) :=
  match authenticateUserToken token with
  | .error e => .error (.auth e)
  | .ok user => .ok (updateBookmark db id title url tags user.username)

def domainDeleteBookmark (token : String) (id : Nat) (db : Db) : Except AppErr Db :=
  match authenticateUserToken token with
  | .error e => .error (.auth e)
  | .ok user => .ok (deleteBookmark db id user.username)

/- RPC mutation wrapper (web/trpcRouter.ts): a mutation maps a successful
domain call to the sentinel and lets a failure propagate unchanged. -/

def rpcUpdateTask (token : String) (id : Nat) (title? description? : Option String)
    (completed? : Option Bool) (db : Db) : Except AppErr String :=
  match domainUpdateTask token id title? description? completed? db with
  | .error e => .error e
  | .ok _ => .ok "OK"

/- Well-formedness of SERIAL counters: every stored id is below the counter,
which PostgreSQL maintains for SERIAL columns. -/

def taskIdsFresh (db : Db) : Bool := db.tasks.all fun r => r.id < db.nextTaskId

def bookmarkIdsFresh (db : Db) : Bool := db.bookmarks.all fun r => r.id < db.nextBookmarkId

/- Helper lemmas about the sort, the lookup and the pattern matcher. -/

theorem mem_insertByKeyDesc {α : Type} (key : α → Nat) (x a : α) (l : List α) :
    a ∈ insertByKeyDesc key x l ↔ a = x ∨ a ∈ l := by
  induction l with
  | nil => simp [insertByKeyDesc]
  | cons y ys ih =>
    simp only [insertByKeyDesc]
    split
    · simp
    · simp only [List.mem_cons, ih]
      tauto

theorem insertByKeyDesc_perm {α : Type} (key : α → Nat) (x : α) (l : List α) :
    List.Perm (insertByKeyDesc key x l) (x :: l) := by
  induction l with
  | nil => exact List.Perm.refl _
  | cons y ys ih =>
    simp only [insertByKeyDesc]
    split
    · exact List.Perm.refl _
    · exact (ih.cons y).trans (List.Perm.swap x y ys)

theorem sortByKeyDesc_perm {α : Type} (key : α → Nat) (l : List α) :
    List.Perm (sortByKeyDesc key l) l := by
  induction l with
  | nil => exact List.Perm.refl _
  | cons x xs ih => exact (insertByKeyDesc_perm key x _).trans (ih.cons x)

theorem mem_sortByKeyDesc {α : Type} (key : α → Nat) (a : α) (l : List α) :
    a ∈ sortByKeyDesc key l ↔ a ∈ l :=
  (sortByKeyDesc_perm key l).mem_iff

theorem find?_append_left_none {α : Type} (p : α → Bool) (l₁ l₂ : List α)
    (h : ∀ r ∈ l₁, p r = false) : (l₁ ++ l₂).find? p = l₂.find? p := by
  induction l₁ with
  | nil => rfl
  | cons x xs ih =>
    rw [List.cons_append, List.find?_cons_of_neg]
    · exact ih fun r hr => h r (List.mem_cons_of_mem x hr)
    · simp [h x (List.mem_cons_self x xs)]

theorem find?_of_unique {α : Type} (p : α → Bool) (l : List α) (a : α)
    (ha : a ∈ l) (hpa : p a = true) (huniq : ∀ r ∈ l, p r = true → r = a) :
    l.find? p = some a := by
  induction l with
  | nil => cases ha
  | cons x xs ih =>
    by_cases hx : p x = true
    · have hxa := huniq x (List.mem_cons_self x xs) hx
      subst hxa
      exact List.find?_cons_of_pos _ hx
    · rw [List.find?_cons_of_neg _ (by simpa using hx)]
      rcases List.mem_cons.mp ha with h | h
      · subst h; exact absurd hpa hx
      · exact ih h fun r hr hpr => huniq r (List.mem_cons_of_mem x hr) hpr

theorem tails_any_isEmpty (cs : List Char) : (cs.tails.any fun s => s.isEmpty) = true := by
  induction cs with
  | nil => rfl
  | cons c cs ih => simp only [List.tails, List.any_cons, ih, Bool.or_true]

theorem likeMatch_percent (ps cs : List Char) :
    likeMatch ('%' :: ps) cs = cs.tails.any fun s => likeMatch ps s := by
  rw [likeMatch.eq_def]
  cases ps <;> cases cs <;> simp

theorem likeMatch_literal_cons (p : Char) (ps : List Char) (c : Char) (cs2 : List Char)
    (hp1 : ¬p = '%') (hp3 : ¬p = '\\') :
    likeMatch (p :: ps) (c :: cs2) = ((p == '_' || charCI p c) && likeMatch ps cs2) := by
  rw [likeMatch.eq_def]
  cases ps <;> simp [hp1, hp3]

theorem likeMatch_literal_nil (p : Char) (ps : List Char)
    (hp1 : ¬p = '%') (hp3 : ¬p = '\\') :
    likeMatch (p :: ps) [] = false := by
  rw [likeMatch.eq_def]
  cases ps <;> simp [hp1, hp3]

theorem likeMatch_literal_percent :
    ∀ needle : List Char, noWildcards needle = true →
      ∀ cs, likeMatch (needle ++ ['%']) cs = ciLeading needle cs
  | [], _, cs => by
    rw [List.nil_append, likeMatch_percent]
    have h1 : (cs.tails.any fun s => likeMatch [] s) = (cs.tails.any fun s => s.isEmpty) := by
      simp only [likeMatch.eq_1]
    rw [h1, tails_any_isEmpty]
    simp [ciLeading]
  | p :: ps, h, cs => by
    simp only [noWildcards, List.all_cons, Bool.and_eq_true, Bool.not_eq_true',
      Bool.or_eq_false_iff, beq_eq_false_iff_ne, ne_eq] at h
    obtain ⟨⟨⟨hp1, hp2⟩, hp3⟩, hps⟩ := h
    have hps2 : noWildcards ps = true := hps
    rw [List.cons_append]
    cases cs with
    | nil =>
      rw [likeMatch_literal_nil _ _ hp1 hp3]
      simp [ciLeading]
    | cons c cs2 =>
      rw [likeMatch_literal_cons _ _ _ _ hp1 hp3,
        likeMatch_literal_percent ps hps2 cs2]
      simp [ciLeading, beq_eq_false_iff_ne.mpr hp2]

theorem likeMatch_wrapped (needle : List Char) (h : noWildcards needle = true) :
    ∀ hay, likeMatch ('%' :: (needle ++ ['%'])) hay = ciSubstr needle hay := by
  intro hay
  induction hay with
  | nil =>
    rw [likeMatch_percent]
    simp only [List.tails, List.any_cons, List.any_nil, Bool.or_false]
    rw [likeMatch_literal_percent needle h, ciSubstr]
  | cons c cs ih =>
    rw [likeMatch_percent] at ih
    rw [likeMatch_percent]
    simp only [List.tails, List.any_cons]
    rw [ih, likeMatch_literal_percent needle h, ciSubstr]

theorem ilike_wrapped (s q : String) (h : noWildcards q.data = true) :
    ilike s ("%" ++ q ++ "%") = ciSubstr q.data s.data := by
  have hd : ("%" ++ q ++ "%").data = '%' :: (q.data ++ ['%']) := by
    simp [String.data_append]
  rw [ilike, hd, likeMatch_wrapped q.data h]

theorem auth_demo : authenticateUserToken "demo-token" = .ok { username := "demo-user" } := rfl

theorem authenticateUserToken_ok (token : String) (u : Principal)
    (h : authenticateUserToken token = .ok u) :
    token = "demo-token" ∧ u = { username := "demo-user" } := by
  by_cases h0 : token = ""
  · subst h0
    simp [authenticateUserToken] at h
  · by_cases h1 : token = "demo-token"
    · subst h1
      rw [auth_demo] at h
      exact ⟨rfl, (Except.ok.inj h).symm⟩
    · simp [authenticateUserToken, h0, h1] at h

theorem mem_getAllTasks (db : Db) (t : Task) :
    t ∈ getAllTasks db ↔ ∃ r, r ∈ db.tasks ∧ mapToExternal r = t := by
  simp only [getAllTasks, List.mem_map, mem_sortByKeyDesc]

theorem mem_getAllBookmarks (db : Db) (username : String) (t? q? : Option String)
    (b : Bookmark) :
    b ∈ getAllBookmarks db username t? q? ↔
      ∃ r, r ∈ db.bookmarks ∧
        (r.created_by == username && tagCond t? r && queryCond q? r) = true ∧
        mapBookmark r = b := by
  simp only [getAllBookmarks, List.mem_map, mem_sortByKeyDesc, List.mem_filter]
  constructor
  · rintro ⟨r, ⟨hr, hc⟩, he⟩
    exact ⟨r, hr, hc, he⟩
  · rintro ⟨r, hr, hc, he⟩
    exact ⟨r, ⟨hr, hc⟩, he⟩

theorem tagCond_nonempty (t : String) (ht : t ≠ "") (r : BookmarkRow) :
    tagCond (some t) r = r.tags.contains t := by
  simp [tagCond, truthy, ht]

theorem queryCond_clean (q : String) (hq : q ≠ "") (hclean : noWildcards q.data = true)
    (r : BookmarkRow) :
    queryCond (some q) r = (ciSubstr q.data r.title.data || ciSubstr q.data r.url.data) := by
  simp only [queryCond, truthy, Option.getD_some]
  rw [if_pos (by simp [hq]), ilike_wrapped r.title q hclean, ilike_wrapped r.url q hclean]

/- Concrete stores used to instantiate the theorems. -/

def db0 : Db := { tasks := [], bookmarks := [], nextTaskId := 1, nextBookmarkId := 1, now := 0 }

def taskA : TaskRow :=
  { id := 1, title := "T", description := "D", completed := false
    created_by := "someone-else", created_at := 5 }

def dbTaskA : Db :=
  { tasks := [taskA], bookmarks := [], nextTaskId := 2, nextBookmarkId := 1, now := 9 }

def bmA : BookmarkRow :=
  { id := 1, title := "a", url := "b", tags := [], created_at := 0, created_by := "demo-user" }

def dbBmA : Db :=
  { tasks := [], bookmarks := [bmA], nextTaskId := 1, nextBookmarkId := 2, now := 1 }

def bmB : BookmarkRow :=
  { id := 2, title := "FooBar", url := "http", tags := ["x"], created_at := 3
    created_by := "demo-user" }

def dbBmB : Db :=
  { tasks := [], bookmarks := [bmB], nextTaskId := 1, nextBookmarkId := 3, now := 4 }

/-- C2: authenticate(token) succeeds exactly when the token is the accepted
literal, in which case it returns the fixed principal; every other string,
the empty string included, is rejected with an Unauthenticated error. -/
theorem authenticate_demo_token_only (token : String) :
    (token = "demo-token" → authenticateUserToken token = .ok { username := "demo-user" }) ∧
    (token ≠ "demo-token" → ∃ e : AuthErr, authenticateUserToken token = .error e) := by
  constructor
  · intro h
    subst h
    exact auth_demo
  · intro h
    by_cases h0 : token = ""
    · subst h0
      exact ⟨.noTokenProvided, rfl⟩
    · exact ⟨.invalidToken, by simp [authenticateUserToken, h0, h]⟩

/-- Witness for C2 at the accepted literal and at a rejected token. -/
theorem authenticate_demo_token_only_witness :
    authenticateUserToken "demo-token" = .ok { username := "demo-user" } ∧
    ∃ e : AuthErr, authenticateUserToken "other" = .error e :=
  ⟨(authenticate_demo_token_only "demo-token").1 rfl,
   (authenticate_demo_token_only "other").2 (by decide)⟩

/-- C10: allBookmarks treats an empty-string tag or query as absent: passing
the empty string applies no corresponding filter, leaving only the other
filter in force. -/
theorem allBookmarks_empty_string_filters_ignored (db : Db) (username : String)
    (t? q? : Option String) :
    getAllBookmarks db username (some "") q? = getAllBookmarks db username none q? ∧
    getAllBookmarks db username t? (some "") = getAllBookmarks db username t? none := by
  constructor <;> simp [getAllBookmarks, tagCond, queryCond, truthy]

/-- C5: task reads are not owner-scoped: any stored task, whoever created
it, is in getAllTasks and is returned by getTaskById for any authenticated
caller; neither query carries an owner predicate. -/
theorem task_reads_not_owner_scoped (db : Db) (row : TaskRow)
    (hmem : row ∈ db.tasks)
    (huniq : ∀ r ∈ db.tasks, r.id = row.id → r = row) :
    mapToExternal row ∈ getAllTasks db ∧
    getTaskById db row.id = some (mapToExternal row) ∧
    domainGetAllTasks "demo-token" db = .ok (getAllTasks db) ∧
    domainGetTaskById "demo-token" db row.id = .ok (getTaskById db row.id) := by
  refine ⟨(mem_getAllTasks db _).mpr ⟨row, hmem, rfl⟩, ?_, rfl, rfl⟩
  have hf := find?_of_unique (fun r => r.id == row.id) db.tasks row hmem (by simp)
    (fun r hr hpr => huniq r hr (by simpa using hpr))
  simp [getTaskById, hf]

/-- Witness for C5: the store holds a task created by someone other than the
demo principal, and every read still returns it. -/
theorem task_reads_not_owner_scoped_witness :
    mapToExternal taskA ∈ getAllTasks dbTaskA ∧
    getTaskById dbTaskA taskA.id = some (mapToExternal taskA) ∧
    domainGetAllTasks "demo-token" dbTaskA = .ok (getAllTasks dbTaskA) ∧
    domainGetTaskById "demo-token" dbTaskA taskA.id = .ok (getTaskById dbTaskA taskA.id) :=
  task_reads_not_owner_scoped dbTaskA taskA (by decide) (by decide)

/-- C1: bookmark reads return only the caller's rows, and a bookmark update
or delete issued with a username other than the row's owner leaves that row
in place unchanged, because the owner equality sits in the WHERE predicate;
the domain layer passes the authenticated principal as that username. -/
theorem bookmarks_owner_scoped (db : Db) (username : String) (t? q? : Option String)
    (id : Nat) (title url : String) (tags : List String) (b bm : Bookmark) (r : BookmarkRow) :
    (b ∈ getAllBookmarks db username t? q? → b.createdBy = username) ∧
    (getBookmarkById db id username = some bm → bm.createdBy = username) ∧
    (r ∈ db.bookmarks → r.created_by ≠ username →
      r ∈ (updateBookmark db id title url tags username).2.bookmarks) ∧
    (r ∈ db.bookmarks → r.created_by ≠ username →
      r ∈ (deleteBookmark db id username).bookmarks) ∧
    domainGetAllBookmarks "demo-token" db t? q? = .ok (getAllBookmarks db "demo-user" t? q?) ∧
    domainGetBookmarkById "demo-token" db id = .ok (getBookmarkById db id "demo-user") ∧
    domainUpdateBookmark "demo-token" id title url tags db
      = .ok (updateBookmark db id title url tags "demo-user") ∧
    domainDeleteBookmark "demo-token" id db = .ok (deleteBookmark db id "demo-user") := by
  refine ⟨?_, ?_, ?_, ?_, rfl, rfl, rfl, rfl⟩
  · intro hb
    obtain ⟨s, _, hc, he⟩ := (mem_getAllBookmarks db username t? q? b).mp hb
    obtain ⟨⟨h1, _⟩, _⟩ := by
      simpa only [Bool.and_eq_true] using hc
    subst he
    simpa [mapBookmark] using h1
  · intro hb
    obtain ⟨s, hs, he⟩ := Option.map_eq_some'.mp hb
    have hp := List.find?_some hs
    obtain ⟨_, h2⟩ := by
      simpa only [Bool.and_eq_true] using hp
    subst he
    simpa [mapBookmark] using h2
  · intro hmem hne
    have h2 : (updateBookmark db id title url tags username).2.bookmarks
        = db.bookmarks.map fun s =>
            if s.id == id && s.created_by == username then
              { s with title := title, url := url, tags := tags }
            else s := by
      cases hfl : db.bookmarks.filter fun s => s.id == id && s.created_by == username <;>
        simp [updateBookmark, hfl]
    rw [h2]
    have hcond : (r.id == id && r.created_by == username) = false := by
      simp [hne]
    have := List.mem_map_of_mem (f := fun s =>
      if s.id == id && s.created_by == username then
        { s with title := title, url := url, tags := tags }
      else s) hmem
    simpa only [hcond, Bool.false_eq_true, if_false] using this
  · intro hmem hne
    refine List.mem_filter.mpr ⟨hmem, ?_⟩
    simp [hne]

/-- Witness for C1: a store holding only a bookmark owned by the demo user,
queried and mutated with a different username. -/
theorem bookmarks_owner_scoped_witness :
    (mapBookmark bmA ∈ getAllBookmarks dbBmA "alice" none none →
      (mapBookmark bmA).createdBy = "alice") ∧
    (getBookmarkById dbBmA 1 "alice" = some (mapBookmark bmA) →
      (mapBookmark bmA).createdBy = "alice") ∧
    (bmA ∈ dbBmA.bookmarks → bmA.created_by ≠ "alice" →
      bmA ∈ (updateBookmark dbBmA 1 "t2" "u2" [] "alice").2.bookmarks) ∧
    (bmA ∈ dbBmA.bookmarks → bmA.created_by ≠ "alice" →
      bmA ∈ (deleteBookmark dbBmA 1 "alice").bookmarks) ∧
    domainGetAllBookmarks "demo-token" dbBmA none none
      = .ok (getAllBookmarks dbBmA "demo-user" none none) ∧
    domainGetBookmarkById "demo-token" dbBmA 1 = .ok (getBookmarkById dbBmA 1 "demo-user") ∧
    domainUpdateBookmark "demo-token" 1 "t2" "u2" [] dbBmA
      = .ok (updateBookmark dbBmA 1 "t2" "u2" [] "demo-user") ∧
    domainDeleteBookmark "demo-token" 1 dbBmA = .ok (deleteBookmark dbBmA 1 "demo-user") :=
  bookmarks_owner_scoped dbBmA "alice" none none 1 "t2" "u2" []
    (mapBookmark bmA) (mapBookmark bmA) bmA

theorem getAllTasks_createTask_perm (db : Db) (input : TaskInput) :
    List.Perm (getAllTasks (createTask db input).2)
      ((createTask db input).1 :: getAllTasks db) := by
  simp only [createTask, getAllTasks]
  refine (List.Perm.map mapToExternal (sortByKeyDesc_perm _ _)).trans ?_
  rw [List.map_append]
  refine (List.perm_append_singleton _ _).trans ?_
  exact List.Perm.cons _ (List.Perm.map mapToExternal (sortByKeyDesc_perm _ _)).symm

/-- C4: every create call (task and bookmark) with a valid token stamps the
authenticated principal as the row's owner; neither domain signature accepts
a caller-supplied owner, so none can override it. The new task additionally
starts uncompleted with the given title and description, and the task
listing afterwards is the old listing plus exactly this one new entry. -/
theorem create_stamps_owner (db : Db) (token title description bmTitle bmUrl : String)
    (tags : List String) (row : Task) (db2 : Db) (bm : Bookmark) (db3 : Db)
    (hfresh : taskIdsFresh db = true)
    (h : domainCreateTask token title description db = .ok (row, db2))
    (hbm : domainCreateBookmark token bmTitle bmUrl tags db = .ok (bm, db3)) :
    token = "demo-token" ∧
    row.createdBy = "demo-user" ∧ row.completed = false ∧
    row.title = title ∧ row.description = description ∧
    bm.createdBy = "demo-user" ∧ bm.title = bmTitle ∧ bm.url = bmUrl ∧ bm.tags = tags ∧
    List.Perm (getAllTasks db2) (row :: getAllTasks db) ∧
    (∀ t ∈ getAllTasks db, t.id ≠ row.id) := by
  cases hauth : authenticateUserToken token with
  | error e =>
    rw [domainCreateTask, hauth] at h
    cases h
  | ok u =>
    obtain ⟨htok, hu⟩ := authenticateUserToken_ok token u hauth
    subst hu
    rw [domainCreateTask, hauth] at h
    rw [domainCreateBookmark, hauth] at hbm
    have hpair := Except.ok.inj h
    have hrow := congrArg Prod.fst hpair
    have hdb2 := congrArg Prod.snd hpair
    have hbmpair := Except.ok.inj hbm
    have hbmrow := congrArg Prod.fst hbmpair
    simp only at hrow hdb2 hbmrow
    subst hrow
    subst hdb2
    subst hbmrow
    refine ⟨htok, rfl, rfl, rfl, rfl, rfl, rfl, rfl, rfl,
      getAllTasks_createTask_perm db _, ?_⟩
    intro t ht
    obtain ⟨r, hr, he⟩ := (mem_getAllTasks db t).mp ht
    have hlt : r.id < db.nextTaskId := of_decide_eq_true (List.all_eq_true.mp hfresh r hr)
    have hrid : (createTask db { title := title, description := description
                                 createdBy := "demo-user" }).1.id = db.nextTaskId := rfl
    rw [hrid, ← he]
    simpa [mapToExternal] using Nat.ne_of_lt hlt

/-- Witness for C4: creating a task and a bookmark in the empty store. -/
theorem create_stamps_owner_witness :
    taskIdsFresh db0 = true ∧
    ("demo-token" = "demo-token" ∧
     (createTask db0 { title := "T", description := "D"
                       createdBy := "demo-user" }).1.createdBy = "demo-user" ∧
     (createTask db0 { title := "T", description := "D"
                       createdBy := "demo-user" }).1.completed = false ∧
     (createTask db0 { title := "T", description := "D"
                       createdBy := "demo-user" }).1.title = "T" ∧
     (createTask db0 { title := "T", description := "D"
                       createdBy := "demo-user" }).1.description = "D" ∧
     (createBookmark db0 "B" "http" ["g"] "demo-user").1.createdBy = "demo-user" ∧
     (createBookmark db0 "B" "http" ["g"] "demo-user").1.title = "B" ∧
     (createBookmark db0 "B" "http" ["g"] "demo-user").1.url = "http" ∧
     (createBookmark db0 "B" "http" ["g"] "demo-user").1.tags = ["g"] ∧
     List.Perm (getAllTasks (createTask db0 { title := "T", description := "D"
                                              createdBy := "demo-user" }).2)
       ((createTask db0 { title := "T", description := "D"
                          createdBy := "demo-user" }).1 :: getAllTasks db0) ∧
     (∀ t ∈ getAllTasks db0,
       t.id ≠ (createTask db0 { title := "T", description := "D"
                                createdBy := "demo-user" }).1.id)) :=
  ⟨by decide,
   create_stamps_owner db0 "demo-token" "T" "D" "B" "http" ["g"] _ _ _ _
     (by decide) rfl rfl⟩

/-- C6: updating only the completed field changes no other column of any
row, keeps every row with a different id, and in general the SET clause is
assembled from exactly the fields present in the input. -/
theorem update_completed_only_frame (db : Db) (id : Nat) (c : Bool) (r : TaskRow) (db2 : Db)
    (hmem : r ∈ db.tasks) (hid : r.id = id)
    (h : updateTask db id { title? := none, description? := none, completed? := some c }
      = .ok db2) :
    ({ r with completed := c } ∈ db2.tasks) ∧
    ((db2.tasks.map fun s => (s.id, s.title, s.description, s.created_by, s.created_at))
      = db.tasks.map fun s => (s.id, s.title, s.description, s.created_by, s.created_at)) ∧
    (∀ s ∈ db.tasks, s.id ≠ id → s ∈ db2.tasks) ∧
    (∀ (u : TaskUpdates) (s : TaskRow), applyTaskSets (taskSetClause u) s =
      { s with title := u.title?.getD s.title
               description := u.description?.getD s.description
               completed := u.completed?.getD s.completed }) := by
  have hany : (db.tasks.any fun s => s.id == id) = true :=
    List.any_eq_true.mpr ⟨r, hmem, by simp [hid]⟩
  have hupd : updateTask db id { title? := none, description? := none, completed? := some c }
      = .ok { db with tasks := db.tasks.map fun s =>
          if s.id == id then { s with completed := c } else s } := by
    simp [updateTask, taskSetClause, hany, applyTaskSets, applyTaskSet]
  rw [hupd] at h
  have hdb2 := (Except.ok.inj h).symm
  subst hdb2
  refine ⟨?_, ?_, ?_, ?_⟩
  · have := List.mem_map_of_mem (f := fun s =>
      if s.id == id then { s with completed := c } else s) hmem
    simpa [hid] using this
  · rw [List.map_map]
    apply List.map_congr_left
    intro s _
    by_cases hs : s.id = id <;> simp [hs]
  · intro s hs hsne
    have := List.mem_map_of_mem (f := fun t =>
      if t.id == id then { t with completed := c } else t) hs
    simpa [beq_eq_false_iff_ne.mpr hsne] using this
  · intro u s
    rcases u with ⟨t?, d?, c?⟩
    cases t? <;> cases d? <;> cases c? <;> rfl

/-- Witness for C6: flipping completed on the only stored task. -/
theorem update_completed_only_frame_witness :
    (taskA ∈ dbTaskA.tasks ∧ taskA.id = 1 ∧
      updateTask dbTaskA 1 { title? := none, description? := none, completed? := some true }
        = .ok { dbTaskA with tasks := [{ taskA with completed := true }] }) ∧
    ({ taskA with completed := true }
        ∈ ({ dbTaskA with tasks := [{ taskA with completed := true }] } : Db).tasks ∧
     ((({ dbTaskA with tasks := [{ taskA with completed := true }] } : Db).tasks.map
          fun s => (s.id, s.title, s.description, s.created_by, s.created_at))
        = dbTaskA.tasks.map fun s => (s.id, s.title, s.description, s.created_by, s.created_at)) ∧
     (∀ s ∈ dbTaskA.tasks, s.id ≠ 1 →
        s ∈ ({ dbTaskA with tasks := [{ taskA with completed := true }] } : Db).tasks) ∧
     (∀ (u : TaskUpdates) (s : TaskRow), applyTaskSets (taskSetClause u) s =
        { s with title := u.title?.getD s.title
                 description := u.description?.getD s.description
                 completed := u.completed?.getD s.completed })) :=
  ⟨⟨by decide, by decide, by rfl⟩,
   update_completed_only_frame dbTaskA 1 true taskA _ (by decide) (by decide) (by rfl)⟩

theorem getTaskById_createTask (db : Db) (input : TaskInput) (hT : taskIdsFresh db = true) :
    getTaskById (createTask db input).2 (createTask db input).1.id
      = some (createTask db input).1 := by
  simp only [createTask, getTaskById]
  rw [find?_append_left_none]
  · rw [List.find?_cons_of_pos _ (by simp [mapToExternal])]
    rfl
  · intro s hs
    have hlt : s.id < db.nextTaskId := of_decide_eq_true (List.all_eq_true.mp hT s hs)
    simp [mapToExternal, Nat.ne_of_lt hlt]

theorem getBookmarkById_createBookmark (db : Db) (title url username : String)
    (tags : List String) (hB : bookmarkIdsFresh db = true) :
    getBookmarkById (createBookmark db title url tags username).2
        (createBookmark db title url tags username).1.id username
      = some (createBookmark db title url tags username).1 := by
  simp only [createBookmark, getBookmarkById]
  rw [find?_append_left_none]
  · rw [List.find?_cons_of_pos _ (by simp [mapBookmark])]
    rfl
  · intro s hs
    have hlt : s.id < db.nextBookmarkId := of_decide_eq_true (List.all_eq_true.mp hB s hs)
    simp [mapBookmark, Nat.ne_of_lt hlt]

/-- C8: creating a task or a bookmark with a valid token and immediately
fetching it by the returned id yields the created record back; its fields
are the input fields, with the id and the creation timestamp assigned by
the server. -/
theorem create_fetch_roundtrip (db : Db) (title description bUrl : String)
    (tags : List String)
    (hT : taskIdsFresh db = true) (hB : bookmarkIdsFresh db = true) :
    (∃ row db2, domainCreateTask "demo-token" title description db = .ok (row, db2) ∧
      getTaskById db2 row.id = some row ∧
      domainGetTaskById "demo-token" db2 row.id = .ok (some row) ∧
      row.title = title ∧ row.description = description ∧ row.completed = false ∧
      row.createdBy = "demo-user") ∧
    (∃ bm db3, domainCreateBookmark "demo-token" title bUrl tags db = .ok (bm, db3) ∧
      getBookmarkById db3 bm.id "demo-user" = some bm ∧
      domainGetBookmarkById "demo-token" db3 bm.id = .ok (some bm) ∧
      bm.title = title ∧ bm.url = bUrl ∧ bm.tags = tags ∧ bm.createdBy = "demo-user") := by
  constructor
  · refine ⟨(createTask db ⟨title, description, "demo-user"⟩).1,
      (createTask db ⟨title, description, "demo-user"⟩).2,
      rfl, getTaskById_createTask db _ hT, ?_, rfl, rfl, rfl, rfl⟩
    simp only [domainGetTaskById, auth_demo]
    rw [getTaskById_createTask db _ hT]
  · refine ⟨(createBookmark db title bUrl tags "demo-user").1,
      (createBookmark db title bUrl tags "demo-user").2,
      rfl, getBookmarkById_createBookmark db title bUrl "demo-user" tags hB, ?_,
      rfl, rfl, rfl, rfl⟩
    simp only [domainGetBookmarkById, auth_demo]
    rw [getBookmarkById_createBookmark db title bUrl "demo-user" tags hB]

/-- Witness for C8: create and fetch back in the empty store. -/
theorem create_fetch_roundtrip_witness :
    (taskIdsFresh db0 = true ∧ bookmarkIdsFresh db0 = true) ∧
    ((∃ row db2, domainCreateTask "demo-token" "T" "D" db0 = .ok (row, db2) ∧
      getTaskById db2 row.id = some row ∧
      domainGetTaskById "demo-token" db2 row.id = .ok (some row) ∧
      row.title = "T" ∧ row.description = "D" ∧ row.completed = false ∧
      row.createdBy = "demo-user") ∧
    (∃ bm db3, domainCreateBookmark "demo-token" "T" "http" ["g"] db0 = .ok (bm, db3) ∧
      getBookmarkById db3 bm.id "demo-user" = some bm ∧
      domainGetBookmarkById "demo-token" db3 bm.id = .ok (some bm) ∧
      bm.title = "T" ∧ bm.url = "http" ∧ bm.tags = ["g"] ∧ bm.createdBy = "demo-user")) :=
  ⟨⟨by decide, by decide⟩,
   create_fetch_roundtrip db0 "T" "D" "http" ["g"] (by decide) (by decide)⟩

/-- C3 counterexample: on the empty store zero rows are affected, yet the
bookmark delete resolves without any error (its result carries no failure at
all) and the bookmark update resolves with null rather than rejecting with
NotFound, refuting the claim for the bookmark entity. -/
theorem storage_zero_rows_counterexample :
    deleteBookmark db0 1 "alice" = db0 ∧
    updateBookmark db0 1 "t2" "u2" [] "alice" = (none, db0) := by
  exact ⟨rfl, rfl⟩

/-- C3 amended: for tasks, update (with at least one field present) and
delete fail with NotFound exactly when no row matches and succeed when one
does; for bookmarks, when no row matches both id and owner, update resolves
with null and delete resolves leaving the store unchanged, with no NotFound
error. -/
theorem storage_zero_rows_amended (db : Db) (id : Nat) (u : TaskUpdates)
    (title url username : String) (tags : List String)
    (hu : taskSetClause u ≠ []) :
    ((db.tasks.any fun r => r.id == id) = true →
      (∃ db2, updateTask db id u = .ok db2) ∧ ∃ db3, deleteTask db id = .ok db3) ∧
    ((db.tasks.any fun r => r.id == id) = false →
      updateTask db id u = .error .notFound ∧ deleteTask db id = .error .notFound) ∧
    ((db.bookmarks.any fun r => r.id == id && r.created_by == username) = false →
      updateBookmark db id title url tags username = (none, db) ∧
      deleteBookmark db id username = db) := by
  have hne : (taskSetClause u).isEmpty = false := by
    cases hsc : taskSetClause u
    · exact absurd hsc hu
    · rfl
  refine ⟨?_, ?_, ?_⟩
  · intro hany
    constructor
    · exact ⟨_, by simp only [updateTask]; rw [if_neg (by simp [hne]), if_pos hany]⟩
    · exact ⟨_, by rw [deleteTask, if_pos hany]⟩
  · intro hany
    constructor
    · simp only [updateTask]
      rw [if_neg (by simp [hne]), if_neg (by simp [hany])]
    · rw [deleteTask, if_neg (by simp [hany])]
  · intro hbany
    have hall := List.any_eq_false.mp hbany
    have hfil : (db.bookmarks.filter fun r => r.id == id && r.created_by == username) = [] :=
      List.filter_eq_nil_iff.mpr hall
    have hmap : (db.bookmarks.map fun r =>
        if r.id == id && r.created_by == username then
          { r with title := title, url := url, tags := tags }
        else r) = db.bookmarks := by
      have h1 : (db.bookmarks.map fun r =>
          if r.id == id && r.created_by == username then
            { r with title := title, url := url, tags := tags }
          else r) = db.bookmarks.map fun r => r := by
        apply List.map_congr_left
        intro r hr
        simp [Bool.eq_false_iff.mpr (hall r hr)]
      rw [h1, List.map_id' db.bookmarks]
    constructor
    · simp only [updateBookmark, hfil, hmap]
    · simp only [deleteBookmark]
      have : (db.bookmarks.filter fun r => !(r.id == id && r.created_by == username))
          = db.bookmarks := by
        apply List.filter_eq_self.mpr
        intro r hr
        simp [Bool.eq_false_iff.mpr (hall r hr)]
      rw [this]

/-- Witness for C3 amended: a store with one task (id 1) and no bookmarks. -/
theorem storage_zero_rows_amended_witness :
    taskSetClause { title? := none, description? := none, completed? := some true } ≠ [] ∧
    (((dbTaskA.tasks.any fun r => r.id == 1) = true →
      (∃ db2, updateTask dbTaskA 1
        { title? := none, description? := none, completed? := some true } = .ok db2) ∧
      ∃ db3, deleteTask dbTaskA 1 = .ok db3) ∧
    ((dbTaskA.tasks.any fun r => r.id == 1) = false →
      updateTask dbTaskA 1 { title? := none, description? := none, completed? := some true }
        = .error .notFound ∧ deleteTask dbTaskA 1 = .error .notFound) ∧
    ((dbTaskA.bookmarks.any fun r => r.id == 1 && r.created_by == "alice") = false →
      updateBookmark dbTaskA 1 "t2" "u2" [] "alice" = (none, dbTaskA) ∧
      deleteBookmark dbTaskA 1 "alice" = dbTaskA)) :=
  ⟨by decide,
   storage_zero_rows_amended dbTaskA 1 { title? := none, description? := none
                                         completed? := some true } "t2" "u2" "alice" []
     (by decide)⟩

/-- C9: the failing input for the error-taxonomy claim. Updating an existing
task with every optional field absent makes the storage layer issue an
UPDATE statement with an empty SET clause; the database rejects that
malformed statement, and the resulting error, which is neither
Unauthenticated nor NotFound nor Validation, propagates unrecovered through
the domain layer to the RPC mutation. -/
theorem updateTask_no_fields_escapes_taxonomy :
    (dbTaskA.tasks.any fun r => r.id == 1) = true ∧
    rpcUpdateTask "demo-token" 1 none none none dbTaskA = .error (.db .malformedSql) ∧
    AppErr.db .malformedSql ≠ .db .notFound ∧
    AppErr.db .malformedSql ≠ .auth .noTokenProvided ∧
    AppErr.db .malformedSql ≠ .auth .invalidToken :=
  ⟨by decide, rfl, by decide, by decide, by decide⟩

/-- C7 counterexample: for the single stored bookmark (title a, url b, no
tags) of the demo user, the query consisting of one percent sign returns the
bookmark although it is not a case-insensitive substring of either the title
or the url (the percent is an ILIKE wildcard, not a literal), and the empty
tag returns the bookmark although its tag set does not contain the empty
string (the falsy tag drops the filter). -/
theorem bookmark_filters_counterexample :
    getAllBookmarks dbBmA "demo-user" none (some "%") = [mapBookmark bmA] ∧
    ciSubstr "%".data bmA.title.data = false ∧
    ciSubstr "%".data bmA.url.data = false ∧
    getAllBookmarks dbBmA "demo-user" (some "") none = [mapBookmark bmA] ∧
    bmA.tags.contains "" = false := by decide

/-- C7 amended: for every nonempty tag t, allBookmarks with tag t returns
exactly the caller's bookmarks whose tag set contains t; for every nonempty
query q free of the ILIKE metacharacters (percent, underscore, backslash),
it returns exactly the caller's bookmarks whose title or url contains q as a
case-insensitive substring; given both, the filters combine conjunctively. -/
theorem bookmark_filters_amended (db : Db) (username t q : String) (b : Bookmark)
    (ht : t ≠ "") (hq : q ≠ "") (hclean : noWildcards q.data = true) :
    (b ∈ getAllBookmarks db username (some t) (some q) ↔
      ∃ r, r ∈ db.bookmarks ∧ mapBookmark r = b ∧ r.created_by = username ∧
        r.tags.contains t = true ∧
        (ciSubstr q.data r.title.data || ciSubstr q.data r.url.data) = true) ∧
    (b ∈ getAllBookmarks db username (some t) none ↔
      ∃ r, r ∈ db.bookmarks ∧ mapBookmark r = b ∧ r.created_by = username ∧
        r.tags.contains t = true) ∧
    (b ∈ getAllBookmarks db username none (some q) ↔
      ∃ r, r ∈ db.bookmarks ∧ mapBookmark r = b ∧ r.created_by = username ∧
        (ciSubstr q.data r.title.data || ciSubstr q.data r.url.data) = true) := by
  refine ⟨?_, ?_, ?_⟩
  · rw [mem_getAllBookmarks]
    constructor
    · rintro ⟨r, hr, hc, he⟩
      rw [tagCond_nonempty t ht, queryCond_clean q hq hclean] at hc
      simp only [Bool.and_eq_true, beq_iff_eq] at hc
      exact ⟨r, hr, he, hc.1.1, hc.1.2, hc.2⟩
    · rintro ⟨r, hr, he, hcb, htag, hqr⟩
      refine ⟨r, hr, ?_, he⟩
      rw [tagCond_nonempty t ht, queryCond_clean q hq hclean]
      simp [hcb, hqr]
      simpa using htag
  · rw [mem_getAllBookmarks]
    constructor
    · rintro ⟨r, hr, hc, he⟩
      rw [tagCond_nonempty t ht] at hc
      simp only [queryCond, truthy, Bool.and_eq_true, beq_iff_eq] at hc
      exact ⟨r, hr, he, hc.1.1, hc.1.2⟩
    · rintro ⟨r, hr, he, hcb, htag⟩
      refine ⟨r, hr, ?_, he⟩
      rw [tagCond_nonempty t ht]
      simp [queryCond, truthy, hcb]
      simpa using htag
  · rw [mem_getAllBookmarks]
    constructor
    · rintro ⟨r, hr, hc, he⟩
      rw [queryCond_clean q hq hclean] at hc
      simp only [tagCond, truthy, Bool.and_eq_true, beq_iff_eq] at hc
      exact ⟨r, hr, he, hc.1.1, hc.2⟩
    · rintro ⟨r, hr, he, hcb, hqr⟩
      refine ⟨r, hr, ?_, he⟩
      rw [queryCond_clean q hq hclean]
      simp [tagCond, truthy, hcb, hqr]

/-- Witness for C7 amended: a bookmark titled FooBar with tag x, matched by
tag x and by the case-insensitive query foo. -/
theorem bookmark_filters_amended_witness :
    ("x" ≠ "" ∧ "foo" ≠ "" ∧ noWildcards "foo".data = true) ∧
    ((mapBookmark bmB ∈ getAllBookmarks dbBmB "demo-user" (some "x") (some "foo") ↔
      ∃ r, r ∈ dbBmB.bookmarks ∧ mapBookmark r = mapBookmark bmB ∧
        r.created_by = "demo-user" ∧ r.tags.contains "x" = true ∧
        (ciSubstr "foo".data r.title.data || ciSubstr "foo".data r.url.data) = true) ∧
    (mapBookmark bmB ∈ getAllBookmarks dbBmB "demo-user" (some "x") none ↔
      ∃ r, r ∈ dbBmB.bookmarks ∧ mapBookmark r = mapBookmark bmB ∧
        r.created_by = "demo-user" ∧ r.tags.contains "x" = true) ∧
    (mapBookmark bmB ∈ getAllBookmarks dbBmB "demo-user" none (some "foo") ↔
      ∃ r, r ∈ dbBmB.bookmarks ∧ mapBookmark r = mapBookmark bmB ∧
        r.created_by = "demo-user" ∧
        (ciSubstr "foo".data r.title.data || ciSubstr "foo".data r.url.data) = true)) :=
  ⟨⟨by decide, by decide, by decide⟩,
   bookmark_filters_amended dbBmB "demo-user" "x" "foo" (mapBookmark bmB)
     (by decide) (by decide) (by decide)⟩

